import Mathlib

/-
Shallow embedding of the plugin registry in src/litellm_plugin/registry.py.

The registry owns two Python dicts: a name-to-class mapping and a
name-to-instance mapping. Python dicts are modelled as association lists in
insertion order: registration appends a fresh binding, deletion removes the
(unique) binding with the given key, and lookup returns the first binding.

Provider classes are modelled by the two facts the registry observes about
them: whether issubclass of BaseCustomProvider holds, and whether the
zero-argument constructor succeeds. Instance identity is modelled by an
allocation counter: every constructor call returns the current counter value
as the new instance and bumps the counter, so two instances are "the same
object" exactly when their numbers are equal.

The litellm integration is modelled by an availability flag (passed as a
parameter) and by the host dispatch table litellm.custom_provider_map,
passed in and out of the initialize operations as an explicit list of
records. Python exceptions are modelled by an error component in the result
together with the state at the moment of the raise, so that partial mutation
before an exception is observable.
-/

namespace ToolProxy

/-- Model of a provider class: the registry only observes whether it is a
subclass of BaseCustomProvider and whether the zero-argument constructor
succeeds when called. -/
structure ProviderClass where
  conforms : Bool
  ctorOk : Bool
deriving DecidableEq, Repr

/-- Provider instances are identified by their allocation number. -/
abbrev Inst := Nat

/-- State of a PluginRegistry: the two dicts of registry.py plus the
allocation counter that models object identity of constructed instances. -/
structure RegistryState where
  providers : List (String × ProviderClass)
  instances : List (String × Inst)
  nextId : Nat
deriving DecidableEq, Repr

/-- The state built by PluginRegistry.__init__: both dicts empty. -/
def RegistryState.init : RegistryState := ⟨[], [], 0⟩

/-- One record of litellm.custom_provider_map. -/
structure DispatchRecord where
  provider : String
  custom_handler : Inst
deriving DecidableEq, Repr

/-- The exceptions raised by registry.py: ValueError on duplicate
registration, TypeError on a non-conformant class, ValueError on
initializing an unknown name, ImportError when litellm is missing, and
whatever a provider constructor may raise. -/
inductive RegError where
  | duplicateName (n : String)
  | conformance
  | unknownName (n : String)
  | integrationUnavailable
  | ctorError
deriving DecidableEq, Repr

/-- Dict lookup: the value bound to the first (unique) binding of the key. -/
def lookupKey {α : Type} (l : List (String × α)) (n : String) : Option α :=
  match l with
  | [] => none
  | p :: ps => if p.1 = n then some p.2 else lookupKey ps n

/-- Key set of a dict, in insertion order. -/
def keys {α : Type} (l : List (String × α)) : List String := l.map (·.1)

/-- Dict deletion: remove the first (unique) binding of the key. -/
def removeKey {α : Type} (l : List (String × α)) (n : String) :
    List (String × α) :=
  match l with
  | [] => []
  | p :: ps => if p.1 = n then ps else p :: removeKey ps n

/-- Model of the call self._instances[name] = provider_class(): on success
the fresh allocation number is the new instance and the counter is bumped;
none models the constructor raising. -/
def createInstance (s : RegistryState) (n : String) (c : ProviderClass) :
    Option (RegistryState × Inst) :=
  if c.ctorOk then
    some (⟨s.providers, s.instances ++ [(n, s.nextId)], s.nextId + 1⟩, s.nextId)
  else none

/-- PluginRegistry.register: duplicate-name check, then conformance check,
then insertion of the name-to-class binding. Returns the raised error (if
any) and the state after the call. -/
def register (s : RegistryState) (n : String) (c : ProviderClass) :
    Option RegError × RegistryState :=
  if (lookupKey s.providers n).isSome then
    (some (RegError.duplicateName n), s)
  else if !c.conforms then
    (some RegError.conformance, s)
  else
    (none, { s with providers := s.providers ++ [(n, c)] })

/-- PluginRegistry.unregister: if the name is a registered key, delete it
from the class dict and, when present, from the instance dict; otherwise do
nothing. Never raises. -/
def unregister (s : RegistryState) (n : String) : RegistryState :=
  if (lookupKey s.providers n).isSome then
    ⟨removeKey s.providers n,
     if (lookupKey s.instances n).isSome then removeKey s.instances n
     else s.instances,
     s.nextId⟩
  else s

/-- PluginRegistry.get_provider: construct and cache the instance when the
name is registered but not yet instantiated, then return
self._instances.get(name). Result: raised error (only a constructor failure
can raise), state after the call, and the returned Optional value. -/
def get_provider (s : RegistryState) (n : String) :
    Option RegError × RegistryState × Option Inst :=
  match lookupKey s.instances n with
  | some _ => (none, s, lookupKey s.instances n)
  | none =>
    match lookupKey s.providers n with
    | some c =>
      match createInstance s n c with
      | some (s1, _) => (none, s1, lookupKey s1.instances n)
      | none => (some RegError.ctorError, s, none)
    | none => (none, s, lookupKey s.instances n)

/-- PluginRegistry.list_providers: a fresh list of the registered names. -/
def list_providers (s : RegistryState) : List String := keys s.providers

/-- Loop body of PluginRegistry.initialize: for each registered
(name, class) pair, instantiate if not already done, then append the
record to litellm.custom_provider_map. A constructor failure raises,
keeping the mutations already performed. -/
def initLoop (ps : List (String × ProviderClass)) (s : RegistryState)
    (t : List DispatchRecord) :
    Option RegError × RegistryState × List DispatchRecord :=
  match ps with
  | [] => (none, s, t)
  | (n, c) :: rest =>
    match lookupKey s.instances n with
    | some i => initLoop rest s (t ++ [⟨n, i⟩])
    | none =>
      match createInstance s n c with
      | some (s1, i) => initLoop rest s1 (t ++ [⟨n, i⟩])
      | none => (some RegError.ctorError, s, t)

/-- PluginRegistry.initialize: raise ImportError when litellm is not
available, otherwise run the loop over the registered providers. Result:
raised error (if any), registry state and dispatch table after the call.
(Named initAllProviders here because the source's name is a Lean keyword.) -/
def initAllProviders (avail : Bool) (s : RegistryState)
    (t : List DispatchRecord) :
    Option RegError × RegistryState × List DispatchRecord :=
  if !avail then (some RegError.integrationUnavailable, s, t)
  else initLoop s.providers s t

/-- PluginRegistry.initialize_provider: availability check, then
registered-name check, then instantiate if needed and append one record. -/
def initProvider (avail : Bool) (s : RegistryState)
    (t : List DispatchRecord) (n : String) :
    Option RegError × RegistryState × List DispatchRecord :=
  if !avail then (some RegError.integrationUnavailable, s, t)
  else
    match lookupKey s.providers n with
    | none => (some (RegError.unknownName n), s, t)
    | some c =>
      match lookupKey s.instances n with
      | some i => (none, s, t ++ [⟨n, i⟩])
      | none =>
        match createInstance s n c with
        | some (s1, i) => (none, s1, t ++ [⟨n, i⟩])
        | none => (some RegError.ctorError, s, t)

/-- Registry states reachable from the freshly constructed registry by the
public operations, including the states left behind by failed calls. -/
inductive Reachable : RegistryState → Prop where
  | init : Reachable RegistryState.init
  | reg (n : String) (c : ProviderClass) {s : RegistryState} :
      Reachable s → Reachable (register s n c).2
  | unreg (n : String) {s : RegistryState} :
      Reachable s → Reachable (unregister s n)
  | get (n : String) {s : RegistryState} :
      Reachable s → Reachable (get_provider s n).2.1
  | initAll (avail : Bool) (t : List DispatchRecord) {s : RegistryState} :
      Reachable s → Reachable (initAllProviders avail s t).2.1
  | initOne (avail : Bool) (t : List DispatchRecord) (n : String)
      {s : RegistryState} :
      Reachable s → Reachable (initProvider avail s t n).2.1

/-- Well-formedness invariant: both dicts have distinct keys (as Python
dicts do), every instantiated name is registered, and every allocated
instance number is below the allocation counter. -/
def WF (s : RegistryState) : Prop :=
  (keys s.providers).Nodup ∧ (keys s.instances).Nodup ∧
  keys s.instances ⊆ keys s.providers ∧
  ∀ p ∈ s.instances, p.2 < s.nextId

/-- Sample conformant provider class with a working constructor, standing
for EchoProvider in the examples. -/
def echoClass : ProviderClass := ⟨true, true⟩

/-- Sample non-conformant class, standing for a class that does not inherit
from BaseCustomProvider. -/
def badClass : ProviderClass := ⟨false, true⟩

/-- Sample conformant class whose constructor raises. -/
def failingCtorClass : ProviderClass := ⟨true, false⟩

/-- Sample state: echoClass registered under the name echo. -/
def sampleReg : RegistryState :=
  (register RegistryState.init "echo" echoClass).2

/-- Sample state: echoClass registered under echo and instantiated by a
lookup. -/
def sampleGot : RegistryState := (get_provider sampleReg "echo").2.1

/-- Sample state with two registered classes, the second of which has a
failing constructor. -/
def twoProvidersOneBadCtor : RegistryState :=
  ⟨[("a", echoClass), ("b", failingCtorClass)], [], 0⟩

/-! Lemmas about the dict primitives. -/

@[simp] theorem keys_nil {α : Type} : keys ([] : List (String × α)) = [] := rfl

@[simp] theorem keys_cons {α : Type} (p : String × α)
    (ps : List (String × α)) : keys (p :: ps) = p.1 :: keys ps := rfl

theorem lookupKey_eq_none_iff {α : Type} {l : List (String × α)} {n : String} :
    lookupKey l n = none ↔ n ∉ keys l := by
  induction l with
  | nil => simp [lookupKey]
  | cons p ps ih =>
    by_cases h : p.1 = n
    · simp [lookupKey, h]
    · simp only [lookupKey, if_neg h, ih, keys_cons, List.mem_cons]
      have hne : ¬n = p.1 := fun he => h he.symm
      tauto

theorem mem_keys_of_lookupKey {α : Type} {l : List (String × α)} {n : String}
    {v : α} (h : lookupKey l n = some v) : n ∈ keys l := by
  induction l with
  | nil => simp [lookupKey] at h
  | cons p ps ih =>
    by_cases hp : p.1 = n
    · rw [keys_cons, hp]
      exact List.mem_cons_self n (keys ps)
    · simp only [lookupKey, if_neg hp] at h
      rw [keys_cons]
      exact List.mem_cons_of_mem _ (ih h)

theorem mem_of_lookupKey {α : Type} {l : List (String × α)} {n : String}
    {v : α} (h : lookupKey l n = some v) : (n, v) ∈ l := by
  induction l with
  | nil => simp [lookupKey] at h
  | cons p ps ih =>
    by_cases hp : p.1 = n
    · subst hp
      have h2 : p.2 = v := by simpa [lookupKey] using h
      subst h2
      exact List.mem_cons_self _ _
    · simp only [lookupKey, if_neg hp] at h
      exact List.mem_cons_of_mem _ (ih h)

theorem lookupKey_isSome_iff {α : Type} {l : List (String × α)} {n : String} :
    (lookupKey l n).isSome ↔ n ∈ keys l := by
  constructor
  · intro h
    obtain ⟨v, hv⟩ := Option.isSome_iff_exists.mp h
    exact mem_keys_of_lookupKey hv
  · intro h
    cases hl : lookupKey l n with
    | some v => rfl
    | none => exact absurd h (lookupKey_eq_none_iff.mp hl)

theorem lookupKey_append_of_some {α : Type} {l₁ l₂ : List (String × α)}
    {n : String} {v : α} (h : lookupKey l₁ n = some v) :
    lookupKey (l₁ ++ l₂) n = some v := by
  induction l₁ with
  | nil => simp [lookupKey] at h
  | cons p ps ih =>
    by_cases hp : p.1 = n <;> simp_all [lookupKey, hp]

theorem lookupKey_append_of_none {α : Type} {l₁ l₂ : List (String × α)}
    {n : String} (h : lookupKey l₁ n = none) :
    lookupKey (l₁ ++ l₂) n = lookupKey l₂ n := by
  induction l₁ with
  | nil => simp
  | cons p ps ih =>
    by_cases hp : p.1 = n <;> simp_all [lookupKey, hp]

theorem keys_append {α : Type} (l₁ l₂ : List (String × α)) :
    keys (l₁ ++ l₂) = keys l₁ ++ keys l₂ := by
  simp [keys]

theorem removeKey_sublist {α : Type} (l : List (String × α)) (n : String) :
    List.Sublist (removeKey l n) l := by
  induction l with
  | nil => simp [removeKey]
  | cons p ps ih =>
    by_cases hp : p.1 = n
    · simp [removeKey, hp]
    · simpa [removeKey, hp] using List.Sublist.cons₂ p ih

theorem mem_of_mem_removeKey {α : Type} {l : List (String × α)} {n : String}
    {p : String × α} (h : p ∈ removeKey l n) : p ∈ l :=
  (removeKey_sublist l n).mem h

theorem keys_removeKey_sublist {α : Type} (l : List (String × α))
    (n : String) : List.Sublist (keys (removeKey l n)) (keys l) := by
  have h := (removeKey_sublist l n).map (fun p => p.1)
  simpa [keys] using h

theorem keys_removeKey_subset {α : Type} (l : List (String × α)) (n : String) :
    keys (removeKey l n) ⊆ keys l :=
  (keys_removeKey_sublist l n).subset

theorem mem_keys_removeKey_of_ne {α : Type} {l : List (String × α)}
    {k n : String} (hk : k ≠ n) : k ∈ keys (removeKey l n) ↔ k ∈ keys l := by
  induction l with
  | nil => simp [removeKey]
  | cons p ps ih =>
    by_cases hp : p.1 = n
    · simp only [removeKey, if_pos hp, keys_cons, List.mem_cons, hp]
      constructor
      · exact Or.inr
      · rintro (he | hm)
        · exact absurd he hk
        · exact hm
    · simp only [removeKey, if_neg hp, keys_cons, List.mem_cons, ih]

theorem not_mem_keys_removeKey {α : Type} {l : List (String × α)} {n : String}
    (h : (keys l).Nodup) : n ∉ keys (removeKey l n) := by
  induction l with
  | nil => simp [removeKey]
  | cons p ps ih =>
    rw [keys_cons] at h
    have hnd := List.nodup_cons.mp h
    by_cases hp : p.1 = n
    · simp only [removeKey, if_pos hp]
      exact hp ▸ hnd.1
    · simp only [removeKey, if_neg hp, keys_cons, List.mem_cons]
      intro hc
      rcases hc with he | hm
      · exact hp he.symm
      · exact ih hnd.2 hm

theorem keys_removeKey_nodup {α : Type} {l : List (String × α)} {n : String}
    (h : (keys l).Nodup) : (keys (removeKey l n)).Nodup :=
  h.sublist (keys_removeKey_sublist l n)

theorem mem_keys_of_mem {α : Type} {l : List (String × α)} {p : String × α}
    (h : p ∈ l) : p.1 ∈ keys l :=
  List.mem_map_of_mem _ h

theorem keys_single_append_nodup {α : Type} {l : List (String × α)}
    {n : String} (h : (keys l).Nodup) (hn : n ∉ keys l) (v : α) :
    (keys (l ++ [(n, v)])).Nodup := by
  have he : keys (l ++ [(n, v)]) = keys l ++ [n] := by simp [keys]
  rw [he, List.nodup_append]
  refine ⟨h, List.nodup_singleton n, fun a ha hb2 => ?_⟩
  rw [List.mem_singleton] at hb2
  exact hn (hb2 ▸ ha)

/-! Preservation of the well-formedness invariant. -/

theorem createInstance_fields {s s1 : RegistryState} {n : String}
    {c : ProviderClass} {i : Inst}
    (h : createInstance s n c = some (s1, i)) :
    s1.providers = s.providers ∧
    s1.instances = s.instances ++ [(n, s.nextId)] ∧
    s1.nextId = s.nextId + 1 ∧ i = s.nextId ∧ c.ctorOk = true := by
  unfold createInstance at h
  by_cases hc : c.ctorOk
  · rw [if_pos hc] at h
    rw [Option.some_inj] at h
    obtain ⟨hs, hi⟩ := Prod.mk.injEq .. ▸ h
    subst hs
    exact ⟨rfl, rfl, rfl, hi.symm ▸ rfl, hc⟩
  · rw [if_neg hc] at h
    exact absurd h (by simp)

theorem wf_createInstance {s s1 : RegistryState} {n : String}
    {c : ProviderClass} {i : Inst} (hwf : WF s)
    (hin : lookupKey s.instances n = none) (hpr : n ∈ keys s.providers)
    (h : createInstance s n c = some (s1, i)) : WF s1 := by
  obtain ⟨hp, hi, hsub, hb⟩ := hwf
  obtain ⟨e1, e2, e3, -, -⟩ := createInstance_fields h
  have hn : n ∉ keys s.instances := lookupKey_eq_none_iff.mp hin
  unfold WF
  rw [e1, e2, e3]
  refine ⟨hp, keys_single_append_nodup hi hn _, ?_, ?_⟩
  · intro a ha
    have he : keys (s.instances ++ [(n, s.nextId)]) = keys s.instances ++ [n] := by
      simp [keys]
    rw [he, List.mem_append] at ha
    rcases ha with h1 | h1
    · exact hsub h1
    · rw [List.mem_singleton] at h1
      exact h1 ▸ hpr
  · intro p hp2
    rw [List.mem_append] at hp2
    rcases hp2 with h1 | h1
    · exact Nat.lt_succ_of_lt (hb p h1)
    · rw [List.mem_singleton] at h1
      subst h1
      exact Nat.lt_succ_self _

theorem wf_register {s : RegistryState} (n : String) (c : ProviderClass)
    (h : WF s) : WF (register s n c).2 := by
  obtain ⟨hp, hi, hsub, hb⟩ := h
  unfold register
  split
  · exact ⟨hp, hi, hsub, hb⟩
  · split
    · exact ⟨hp, hi, hsub, hb⟩
    · rename_i h1 h2
      have hn : n ∉ keys s.providers := by
        rw [← lookupKey_isSome_iff]
        simpa using h1
      refine ⟨keys_single_append_nodup hp hn _, hi, ?_, hb⟩
      intro a ha
      rw [keys_append]
      exact List.mem_append_left _ (hsub ha)

theorem wf_unregister {s : RegistryState} (n : String) (h : WF s) :
    WF (unregister s n) := by
  obtain ⟨hp, hi, hsub, hb⟩ := h
  unfold unregister
  split
  · refine ⟨keys_removeKey_nodup hp, ?_, ?_, ?_⟩
    · split
      · exact keys_removeKey_nodup hi
      · exact hi
    · intro a ha
      by_cases hc : a = n
      · subst hc
        exfalso
        revert ha
        split
        · exact fun ha => not_mem_keys_removeKey hi ha
        · rename_i h2
          intro ha
          exact h2 (lookupKey_isSome_iff.mpr ha)
      · have ha2 : a ∈ keys s.instances := by
          revert ha
          split
          · exact fun ha => (mem_keys_removeKey_of_ne hc).mp ha
          · exact id
        exact (mem_keys_removeKey_of_ne hc).mpr (hsub ha2)
    · intro p hp2
      have hp3 : p ∈ s.instances := by
        revert hp2
        split
        · exact fun hp2 => mem_of_mem_removeKey hp2
        · exact id
      exact hb p hp3
  · exact ⟨hp, hi, hsub, hb⟩

theorem wf_get {s : RegistryState} (n : String) (h : WF s) :
    WF (get_provider s n).2.1 := by
  cases hin : lookupKey s.instances n with
  | some i =>
    simp only [get_provider, hin]
    exact h
  | none =>
    cases hpr : lookupKey s.providers n with
    | none =>
      simp only [get_provider, hin, hpr]
      exact h
    | some c =>
      cases hci : createInstance s n c with
      | some r =>
        obtain ⟨s1, i⟩ := r
        simp only [get_provider, hin, hpr, hci]
        exact wf_createInstance h hin (mem_keys_of_lookupKey hpr) hci
      | none =>
        simp only [get_provider, hin, hpr, hci]
        exact h

theorem initLoop_wf (ps : List (String × ProviderClass)) (s : RegistryState)
    (t : List DispatchRecord) (hwf : WF s)
    (hall : ∀ p ∈ ps, p.1 ∈ keys s.providers) :
    WF (initLoop ps s t).2.1 ∧ (initLoop ps s t).2.1.providers = s.providers := by
  induction ps generalizing s t with
  | nil => exact ⟨hwf, rfl⟩
  | cons q rest ih =>
    obtain ⟨n, c⟩ := q
    unfold initLoop
    cases hin : lookupKey s.instances n with
    | some i =>
      exact ih s (t ++ [⟨n, i⟩]) hwf
        (fun p hp2 => hall p (List.mem_cons_of_mem _ hp2))
    | none =>
      cases hci : createInstance s n c with
      | some r =>
        obtain ⟨s1, i⟩ := r
        have hf := createInstance_fields hci
        have hw1 := wf_createInstance hwf hin
          (hall (n, c) (List.mem_cons_self _ _)) hci
        have hr := ih s1 (t ++ [⟨n, i⟩]) hw1 (fun p hp2 => by
          rw [hf.1]
          exact hall p (List.mem_cons_of_mem _ hp2))
        exact ⟨hr.1, by rw [hr.2, hf.1]⟩
      | none => exact ⟨hwf, rfl⟩

theorem wf_initAll {s : RegistryState} (avail : Bool)
    (t : List DispatchRecord) (h : WF s) :
    WF (initAllProviders avail s t).2.1 := by
  unfold initAllProviders
  split
  · exact h
  · exact (initLoop_wf s.providers s t h (fun p hp2 => mem_keys_of_mem hp2)).1

theorem wf_initProvider {s : RegistryState} (avail : Bool)
    (t : List DispatchRecord) (n : String) (h : WF s) :
    WF (initProvider avail s t n).2.1 := by
  cases avail with
  | false => exact h
  | true =>
    cases hpr : lookupKey s.providers n with
    | none =>
      simp only [initProvider, hpr]
      exact h
    | some c =>
      cases hin : lookupKey s.instances n with
      | some i =>
        simp only [initProvider, hpr, hin]
        exact h
      | none =>
        cases hci : createInstance s n c with
        | some r =>
          obtain ⟨s1, i⟩ := r
          simp only [initProvider, hpr, hin, hci]
          exact wf_createInstance h hin (mem_keys_of_lookupKey hpr) hci
        | none =>
          simp only [initProvider, hpr, hin, hci]
          exact h

/-! Behaviour of the initialization loop. -/

theorem initLoop_providers (ps : List (String × ProviderClass))
    (s : RegistryState) (t : List DispatchRecord) :
    (initLoop ps s t).2.1.providers = s.providers := by
  induction ps generalizing s t with
  | nil => rfl
  | cons q rest ih =>
    obtain ⟨n, c⟩ := q
    cases hin : lookupKey s.instances n with
    | some i =>
      simp only [initLoop, hin]
      exact ih _ _
    | none =>
      cases hci : createInstance s n c with
      | some r =>
        obtain ⟨s1, i⟩ := r
        simp only [initLoop, hin, hci]
        rw [ih s1 _]
        exact (createInstance_fields hci).1
      | none =>
        simp only [initLoop, hin, hci]

theorem initLoop_no_unavailable (ps : List (String × ProviderClass))
    (s : RegistryState) (t : List DispatchRecord) :
    (initLoop ps s t).1 ≠ some RegError.integrationUnavailable := by
  induction ps generalizing s t with
  | nil => simp [initLoop]
  | cons q rest ih =>
    obtain ⟨n, c⟩ := q
    cases hin : lookupKey s.instances n with
    | some i =>
      simp only [initLoop, hin]
      exact ih _ _
    | none =>
      cases hci : createInstance s n c with
      | some r =>
        obtain ⟨s1, i⟩ := r
        simp only [initLoop, hin, hci]
        exact ih _ _
      | none => simp [initLoop, hin, hci]

theorem initLoop_allCached (ps : List (String × ProviderClass))
    (s : RegistryState) (t : List DispatchRecord)
    (h : ∀ p ∈ ps, (lookupKey s.instances p.1).isSome) :
    initLoop ps s t = (none, s, t ++ ps.map (fun p =>
      (⟨p.1, (lookupKey s.instances p.1).getD 0⟩ : DispatchRecord))) := by
  induction ps generalizing t with
  | nil => simp [initLoop]
  | cons q rest ih =>
    obtain ⟨n, c⟩ := q
    obtain ⟨i, hi2⟩ := Option.isSome_iff_exists.mp
      (h (n, c) (List.mem_cons_self _ _))
    simp only [initLoop, hi2]
    rw [ih _ (fun p hp3 => h p (List.mem_cons_of_mem _ hp3))]
    simp [hi2]

theorem initLoop_success :
    ∀ (ps : List (String × ProviderClass)) (s : RegistryState)
      (t : List DispatchRecord),
    (∀ p ∈ ps, p.2.ctorOk = true) →
    (initLoop ps s t).1 = none ∧
    (∀ m i, lookupKey s.instances m = some i →
      lookupKey (initLoop ps s t).2.1.instances m = some i) ∧
    (∀ p ∈ ps, ∃ i,
      lookupKey (initLoop ps s t).2.1.instances p.1 = some i) ∧
    (initLoop ps s t).2.2 =
      t ++ ps.map (fun p =>
        (⟨p.1, (lookupKey (initLoop ps s t).2.1.instances p.1).getD 0⟩ :
          DispatchRecord)) := by
  intro ps
  induction ps with
  | nil =>
    intro s t _
    exact ⟨rfl, fun m i hm => hm,
      fun p hp2 => absurd hp2 (List.not_mem_nil p), by simp [initLoop]⟩
  | cons q rest ih =>
    intro s t h
    obtain ⟨n, c⟩ := q
    have hrest : ∀ p ∈ rest, p.2.ctorOk = true :=
      fun p hp2 => h p (List.mem_cons_of_mem _ hp2)
    cases hin : lookupKey s.instances n with
    | some i =>
      have heq : initLoop ((n, c) :: rest) s t =
          initLoop rest s (t ++ [⟨n, i⟩]) := by
        simp only [initLoop, hin]
      rw [heq]
      obtain ⟨e1, e2, e3, e4⟩ := ih s (t ++ [⟨n, i⟩]) hrest
      refine ⟨e1, e2, ?_, ?_⟩
      · intro p hp2
        rcases List.mem_cons.mp hp2 with he | hm
        · subst he
          exact ⟨i, e2 n i hin⟩
        · exact e3 p hm
      · rw [e4]
        simp [e2 n i hin]
    | none =>
      have hc : c.ctorOk = true := h (n, c) (List.mem_cons_self _ _)
      have hci : createInstance s n c =
          some (⟨s.providers, s.instances ++ [(n, s.nextId)], s.nextId + 1⟩,
            s.nextId) := by
        simp [createInstance, hc]
      have heq : initLoop ((n, c) :: rest) s t =
          initLoop rest
            ⟨s.providers, s.instances ++ [(n, s.nextId)], s.nextId + 1⟩
            (t ++ [⟨n, s.nextId⟩]) := by
        simp only [initLoop, hin, hci]
      rw [heq]
      obtain ⟨e1, e2, e3, e4⟩ :=
        ih ⟨s.providers, s.instances ++ [(n, s.nextId)], s.nextId + 1⟩
          (t ++ [⟨n, s.nextId⟩]) hrest
      have han : lookupKey
          (⟨s.providers, s.instances ++ [(n, s.nextId)], s.nextId + 1⟩ :
            RegistryState).instances n = some s.nextId := by
        show lookupKey (s.instances ++ [(n, s.nextId)]) n = some s.nextId
        rw [lookupKey_append_of_none hin]
        simp [lookupKey]
      refine ⟨e1, ?_, ?_, ?_⟩
      · intro m i hm
        exact e2 m i (lookupKey_append_of_some hm)
      · intro p hp2
        rcases List.mem_cons.mp hp2 with he | hm
        · subst he
          exact ⟨s.nextId, e2 n s.nextId han⟩
        · exact e3 p hm
      · rw [e4]
        simp [e2 n s.nextId han]

theorem reachable_wf {s : RegistryState} (h : Reachable s) : WF s := by
  induction h with
  | init => exact ⟨List.nodup_nil, List.nodup_nil, fun a ha => ha,
      fun p hp2 => absurd hp2 (List.not_mem_nil p)⟩
  | reg n c _ ih => exact wf_register n c ih
  | unreg n _ ih => exact wf_unregister n ih
  | get n _ ih => exact wf_get n ih
  | initAll avail t _ ih => exact wf_initAll avail t ih
  | initOne avail t n _ ih => exact wf_initProvider avail t n ih

/-! Claim theorems. -/

/-- C1: register raises DuplicateNameError (ValueError) exactly when the
name is already a key of the type mapping, raises ConformanceError
(TypeError) exactly when the name is fresh and the class does not conform
to the BaseCustomProvider contract, and on either failure the registry
state, hence also the list_providers result, is unchanged. -/
theorem register_error_spec (s : RegistryState) (n : String)
    (c : ProviderClass) :
    ((register s n c).1 = some (RegError.duplicateName n) ↔
      n ∈ keys s.providers) ∧
    ((register s n c).1 = some RegError.conformance ↔
      n ∉ keys s.providers ∧ c.conforms = false) ∧
    ((register s n c).1 ≠ none → (register s n c).2 = s) := by
  by_cases h1 : (lookupKey s.providers n).isSome
  · have hm : n ∈ keys s.providers := lookupKey_isSome_iff.mp h1
    simp [register, h1, hm]
  · have hm : n ∉ keys s.providers := fun hc => h1 (lookupKey_isSome_iff.mpr hc)
    by_cases h2 : c.conforms
    · simp [register, h1, h2, hm]
    · simp [register, h1, h2, hm]

/-- Witness for C1 at a concrete duplicate registration: registering echo
twice fails and leaves the state of the first registration unchanged. -/
theorem register_error_spec_witness :
    (register sampleReg "echo" echoClass).1 ≠ none ∧
    (register sampleReg "echo" echoClass).2 = sampleReg :=
  ⟨by decide, (register_error_spec sampleReg "echo" echoClass).2.2 (by decide)⟩

/-- C6: for a name present in neither mapping, get_provider returns the
None sentinel without raising and without mutating state, and unregister
is a silent no-op. -/
theorem absent_name_lenient (s : RegistryState) (n : String)
    (hre : Reachable s) (hp : n ∉ keys s.providers) :
    get_provider s n = (none, s, none) ∧ unregister s n = s := by
  have hi : n ∉ keys s.instances :=
    fun hc => hp ((reachable_wf hre).2.2.1 hc)
  have h1 : lookupKey s.instances n = none := lookupKey_eq_none_iff.mpr hi
  have h2 : lookupKey s.providers n = none := lookupKey_eq_none_iff.mpr hp
  constructor
  · simp [get_provider, h1, h2]
  · simp [unregister, h2]

/-- Witness for C6 at the name missing on the sample registry. -/
theorem absent_name_lenient_witness :
    "missing" ∉ keys sampleGot.providers ∧
    get_provider sampleGot "missing" = (none, sampleGot, none) ∧
    unregister sampleGot "missing" = sampleGot := by
  refine ⟨by decide, ?_⟩
  exact absent_name_lenient sampleGot "missing"
    (Reachable.get "echo" (Reachable.reg "echo" echoClass Reachable.init))
    (by decide)

/-- C7: initialize_provider raises ImportError when litellm is
unavailable, raises ValueError for an unregistered name when litellm is
available, and in both failure cases neither the registry state nor the
dispatch table is mutated. -/
theorem initProvider_failure_cases (s : RegistryState)
    (t : List DispatchRecord) (n : String) :
    initProvider false s t n = (some RegError.integrationUnavailable, s, t) ∧
    (n ∉ keys s.providers →
      initProvider true s t n = (some (RegError.unknownName n), s, t)) := by
  constructor
  · rfl
  · intro hn
    have h2 : lookupKey s.providers n = none := lookupKey_eq_none_iff.mpr hn
    simp [initProvider, h2]

/-- Witness for C7 at a concrete unregistered name. -/
theorem initProvider_failure_cases_witness :
    initProvider false sampleReg [] "x" =
      (some RegError.integrationUnavailable, sampleReg, []) ∧
    ("x" ∉ keys sampleReg.providers ∧
      initProvider true sampleReg [] "x" =
        (some (RegError.unknownName "x"), sampleReg, [])) :=
  ⟨(initProvider_failure_cases sampleReg [] "x").1,
   by decide,
   (initProvider_failure_cases sampleReg [] "x").2 (by decide)⟩

/-- C9: the duplicate-name check precedes the conformance check, so for an
already-registered name register raises DuplicateNameError no matter the
class, even a non-conformant one. -/
theorem duplicate_check_first (s : RegistryState) (n : String)
    (c : ProviderClass) (h : n ∈ keys s.providers) :
    register s n c = (some (RegError.duplicateName n), s) := by
  have h1 : (lookupKey s.providers n).isSome = true := lookupKey_isSome_iff.mpr h
  simp [register, h1]

/-- Witness for C9: re-registering echo with a non-conformant class still
reports the duplicate name, not the conformance failure. -/
theorem duplicate_check_first_witness :
    "echo" ∈ keys sampleReg.providers ∧
    register sampleReg "echo" badClass =
      (some (RegError.duplicateName "echo"), sampleReg) :=
  ⟨by decide, duplicate_check_first sampleReg "echo" badClass (by decide)⟩

/-- C2: registration never creates an instance; on a registered,
never-instantiated name the first get_provider constructs exactly one
instance through the zero-argument constructor (the fresh allocation
s.nextId), caches it by appending it to the instance mapping, and a second
get_provider returns the identical instance without further mutation. -/
theorem lazy_singleton_get (s : RegistryState) (n m : String)
    (c d : ProviderClass) (hin : lookupKey s.instances n = none)
    (hpr : lookupKey s.providers n = some c) (hok : c.ctorOk = true) :
    (register s m d).2.instances = s.instances ∧
    (get_provider s n).1 = none ∧
    (get_provider s n).2.2 = some s.nextId ∧
    (get_provider s n).2.1.instances = s.instances ++ [(n, s.nextId)] ∧
    get_provider (get_provider s n).2.1 n =
      (none, (get_provider s n).2.1, some s.nextId) := by
  have hreg : (register s m d).2.instances = s.instances := by
    unfold register
    split
    · rfl
    · split <;> rfl
  have hci : createInstance s n c =
      some (⟨s.providers, s.instances ++ [(n, s.nextId)], s.nextId + 1⟩,
        s.nextId) := by
    simp [createInstance, hok]
  have hlk : lookupKey (s.instances ++ [(n, s.nextId)]) n = some s.nextId := by
    rw [lookupKey_append_of_none hin]
    simp [lookupKey]
  have hget : get_provider s n =
      (none, ⟨s.providers, s.instances ++ [(n, s.nextId)], s.nextId + 1⟩,
        some s.nextId) := by
    simp [get_provider, hin, hpr, hci, hlk]
  have hget2 : get_provider (get_provider s n).2.1 n =
      (none, (get_provider s n).2.1, some s.nextId) := by
    rw [hget]
    simp [get_provider, hlk]
  exact ⟨hreg, by rw [hget], by rw [hget], by rw [hget], hget2⟩

/-- Witness for C2 on the sample registry: getting echo twice yields the
same instance 0, allocated on the first call. -/
theorem lazy_singleton_get_witness :
    lookupKey sampleReg.instances "echo" = none ∧
    lookupKey sampleReg.providers "echo" = some echoClass ∧
    ((register sampleReg "other" echoClass).2.instances =
        sampleReg.instances ∧
      (get_provider sampleReg "echo").1 = none ∧
      (get_provider sampleReg "echo").2.2 = some sampleReg.nextId ∧
      (get_provider sampleReg "echo").2.1.instances =
        sampleReg.instances ++ [("echo", sampleReg.nextId)] ∧
      get_provider (get_provider sampleReg "echo").2.1 "echo" =
        (none, (get_provider sampleReg "echo").2.1,
          some sampleReg.nextId)) :=
  ⟨by decide, by decide,
   lazy_singleton_get sampleReg "echo" "other" echoClass echoClass
     (by decide) (by decide) (by decide)⟩

/-- C5: in every reachable registry state the key set of the instance
mapping is a subset of the key set of the type mapping. -/
theorem instances_subset_providers (s : RegistryState) (h : Reachable s) :
    keys s.instances ⊆ keys s.providers :=
  (reachable_wf h).2.2.1

/-- Witness for C5 on a reachable state with a nonempty instance
mapping. -/
theorem instances_subset_providers_witness :
    keys sampleGot.instances ⊆ keys sampleGot.providers :=
  instances_subset_providers sampleGot
    (Reachable.get "echo" (Reachable.reg "echo" echoClass Reachable.init))

/-- C8: on a reachable state with a cached instance for a name,
unregistering the name, re-registering it (with any conformant class with
a working constructor, in particular the same one), and looking it up
again succeeds and yields an instance that is identity-distinct from the
previously cached instance and from every instance the registry had handed
out before. -/
theorem reregister_fresh_instance (s : RegistryState) (n : String)
    (c : ProviderClass) (i0 : Inst) (hre : Reachable s)
    (hi : lookupKey s.instances n = some i0) (hcf : c.conforms = true)
    (hok : c.ctorOk = true) :
    (register (unregister s n) n c).1 = none ∧
    ∃ j, (get_provider (register (unregister s n) n c).2 n).2.2 = some j ∧
      j ≠ i0 ∧ ∀ p ∈ s.instances, p.2 ≠ j := by
  obtain ⟨hp, hiN, hsub, hb⟩ := reachable_wf hre
  have hips : (lookupKey s.instances n).isSome = true := by
    rw [hi]
    rfl
  have hmemp : n ∈ keys s.providers := hsub (mem_keys_of_lookupKey hi)
  have hpps : (lookupKey s.providers n).isSome = true :=
    lookupKey_isSome_iff.mpr hmemp
  have hu : unregister s n =
      ⟨removeKey s.providers n, removeKey s.instances n, s.nextId⟩ := by
    simp [unregister, hips, hpps]
  have hnp : lookupKey (removeKey s.providers n) n = none :=
    lookupKey_eq_none_iff.mpr (not_mem_keys_removeKey hp)
  have hni : lookupKey (removeKey s.instances n) n = none :=
    lookupKey_eq_none_iff.mpr (not_mem_keys_removeKey hiN)
  have hr : register (unregister s n) n c =
      (none, ⟨removeKey s.providers n ++ [(n, c)],
        removeKey s.instances n, s.nextId⟩) := by
    rw [hu]
    simp [register, hnp, hcf]
  have hpc : lookupKey (removeKey s.providers n ++ [(n, c)]) n = some c := by
    rw [lookupKey_append_of_none hnp]
    simp [lookupKey]
  have hlt : i0 < s.nextId := hb (n, i0) (mem_of_lookupKey hi)
  refine ⟨by rw [hr], s.nextId, ?_, ne_of_gt hlt, ?_⟩
  · rw [hr]
    have hci : createInstance
        (⟨removeKey s.providers n ++ [(n, c)],
          removeKey s.instances n, s.nextId⟩ : RegistryState) n c =
        some (⟨removeKey s.providers n ++ [(n, c)],
          removeKey s.instances n ++ [(n, s.nextId)], s.nextId + 1⟩,
          s.nextId) := by
      simp [createInstance, hok]
    have hlk2 : lookupKey (removeKey s.instances n ++ [(n, s.nextId)]) n =
        some s.nextId := by
      rw [lookupKey_append_of_none hni]
      simp [lookupKey]
    simp [get_provider, hni, hpc, hci, hlk2]
  · intro p hp2
    exact Nat.ne_of_lt (hb p hp2)

/-- Witness for C8: after unregistering and re-registering echo on the
instantiated sample registry, the next lookup yields instance 1, distinct
from the previously cached instance 0. -/
theorem reregister_fresh_instance_witness :
    lookupKey sampleGot.instances "echo" = some 0 ∧
    ((register (unregister sampleGot "echo") "echo" echoClass).1 = none ∧
      ∃ j, (get_provider
          (register (unregister sampleGot "echo") "echo" echoClass).2
          "echo").2.2 = some j ∧
        j ≠ 0 ∧ ∀ p ∈ sampleGot.instances, p.2 ≠ j) :=
  ⟨by decide,
   reregister_fresh_instance sampleGot "echo" echoClass 0
     (Reachable.get "echo" (Reachable.reg "echo" echoClass Reachable.init))
     (by decide) (by decide) (by decide)⟩

/-- C3: with litellm available and every registered class constructible,
initialize raises nothing and appends to the dispatch table exactly one
record per registered name, in registration order, whose handler is that
name's cached singleton instance in the resulting state; with zero
registered names nothing is appended. -/
theorem init_appends_one_record_per_name (s : RegistryState)
    (t : List DispatchRecord)
    (h : ∀ p ∈ s.providers, p.2.ctorOk = true) :
    (initAllProviders true s t).1 = none ∧
    (initAllProviders true s t).2.2 =
      t ++ s.providers.map (fun p =>
        (⟨p.1, (lookupKey
          (initAllProviders true s t).2.1.instances p.1).getD 0⟩ :
          DispatchRecord)) ∧
    (∀ p ∈ s.providers, ∃ i,
      lookupKey (initAllProviders true s t).2.1.instances p.1 = some i) ∧
    (initAllProviders true s t).2.2.length =
      t.length + (list_providers s).length := by
  have he : initAllProviders true s t = initLoop s.providers s t := by
    simp [initAllProviders]
  rw [he]
  obtain ⟨e1, e2, e3, e4⟩ := initLoop_success s.providers s t h
  refine ⟨e1, e4, e3, ?_⟩
  rw [e4]
  simp [list_providers, keys]

/-- Witness for C3 on the sample one-provider registry. -/
theorem init_appends_one_record_per_name_witness :
    (∀ p ∈ sampleReg.providers, p.2.ctorOk = true) ∧
    ((initAllProviders true sampleReg []).1 = none ∧
      (initAllProviders true sampleReg []).2.2 =
        [] ++ sampleReg.providers.map (fun p =>
          (⟨p.1, (lookupKey
            (initAllProviders true sampleReg []).2.1.instances p.1).getD 0⟩ :
            DispatchRecord)) ∧
      (∀ p ∈ sampleReg.providers, ∃ i,
        lookupKey (initAllProviders true sampleReg []).2.1.instances p.1 =
          some i) ∧
      (initAllProviders true sampleReg []).2.2.length =
        ([] : List DispatchRecord).length +
          (list_providers sampleReg).length) :=
  ⟨by decide, init_appends_one_record_per_name sampleReg [] (by decide)⟩

/-- Counterexample for C4: on a registry with two providers whose second
constructor fails, initialize raises yet has already appended the first
provider's record to the dispatch table and cached its instance, so the
state is not as it was before the call. -/
theorem init_not_atomic_counterexample :
    (initAllProviders true twoProvidersOneBadCtor []).1 =
      some RegError.ctorError ∧
    (initAllProviders true twoProvidersOneBadCtor []).2.2 = [⟨"a", 0⟩] ∧
    (initAllProviders true twoProvidersOneBadCtor []).2.2 ≠ [] ∧
    (initAllProviders true twoProvidersOneBadCtor []).2.1.instances =
      [("a", 0)] ∧
    twoProvidersOneBadCtor.instances = [] := by
  decide

/-- C4 as amended: register, unregister and initialize_provider are atomic
on failure (unregister cannot raise at all, and a constructor failure
inside initialize_provider happens before any mutation), and initialize is
atomic when it fails because litellm is unavailable; but a constructor
failure mid-pass of initialize keeps the records and instances already
produced for earlier names. -/
theorem atomic_failure_spec (avail : Bool) (s : RegistryState)
    (t : List DispatchRecord) (n : String) (c : ProviderClass) :
    ((register s n c).1.isSome → (register s n c).2 = s) ∧
    ((initProvider avail s t n).1.isSome →
      (initProvider avail s t n).2 = (s, t)) ∧
    ((initAllProviders avail s t).1 = some RegError.integrationUnavailable →
      (initAllProviders avail s t).2 = (s, t)) := by
  refine ⟨?_, ?_, ?_⟩
  · unfold register
    split
    · exact fun _ => rfl
    · split
      · exact fun _ => rfl
      · simp
  · cases avail with
    | false => exact fun _ => rfl
    | true =>
      cases hpr : lookupKey s.providers n with
      | none =>
        simp only [initProvider, hpr]
        exact fun _ => rfl
      | some c2 =>
        cases hin : lookupKey s.instances n with
        | some i =>
          simp only [initProvider, hpr, hin]
          simp
        | none =>
          cases hci : createInstance s n c2 with
          | some r =>
            obtain ⟨s1, i⟩ := r
            simp only [initProvider, hpr, hin, hci]
            simp
          | none =>
            simp only [initProvider, hpr, hin, hci]
            exact fun _ => rfl
  · cases avail with
    | false => exact fun _ => rfl
    | true =>
      intro hbad
      have he : initAllProviders true s t = initLoop s.providers s t := by
        simp [initAllProviders]
      rw [he] at hbad
      exact absurd hbad (initLoop_no_unavailable s.providers s t)

/-- Witness for C4's amended statement at concrete failing calls: a
duplicate registration and two unavailable-litellm initializations, each
leaving state and table unchanged. -/
theorem atomic_failure_spec_witness :
    (register sampleReg "echo" echoClass).1.isSome ∧
    (register sampleReg "echo" echoClass).2 = sampleReg ∧
    (initProvider false sampleReg [] "echo").2 = (sampleReg, []) ∧
    (initAllProviders false sampleReg []).2 = (sampleReg, []) :=
  ⟨by decide,
   (atomic_failure_spec false sampleReg [] "echo" echoClass).1 (by decide),
   (atomic_failure_spec false sampleReg [] "echo" echoClass).2.1 (by decide),
   (atomic_failure_spec false sampleReg [] "echo" echoClass).2.2 (by decide)⟩

/-- C10: initialize is not idempotent: running it twice on an
all-constructible registry appends the same block of records twice, so a
registry with N names ends with 2N records, the second N being duplicates
carrying the same singleton instances. -/
theorem init_twice_appends_twice (s : RegistryState)
    (t : List DispatchRecord)
    (h : ∀ p ∈ s.providers, p.2.ctorOk = true) :
    ∃ recs, recs.length = (list_providers s).length ∧
      (initAllProviders true (initAllProviders true s t).2.1
        (initAllProviders true s t).2.2).2.2 = t ++ recs ++ recs := by
  have he : ∀ (s2 : RegistryState) (t2 : List DispatchRecord),
      initAllProviders true s2 t2 = initLoop s2.providers s2 t2 := by
    intro s2 t2
    simp [initAllProviders]
  rw [he, he, initLoop_providers s.providers s t]
  obtain ⟨e1, e2, e3, e4⟩ := initLoop_success s.providers s t h
  have e3s : ∀ p ∈ s.providers,
      (lookupKey (initLoop s.providers s t).2.1.instances p.1).isSome := by
    intro p hp3
    obtain ⟨i, hi2⟩ := e3 p hp3
    rw [hi2]
    rfl
  rw [initLoop_allCached s.providers _ _ e3s, e4]
  exact ⟨s.providers.map (fun p =>
    (⟨p.1, (lookupKey (initLoop s.providers s t).2.1.instances p.1).getD 0⟩ :
      DispatchRecord)),
    by simp [list_providers, keys], rfl⟩

/-- Witness for C10 on the sample one-provider registry: two initialize
passes leave two identical echo records. -/
theorem init_twice_appends_twice_witness :
    (∀ p ∈ sampleReg.providers, p.2.ctorOk = true) ∧
    ∃ recs, recs.length = (list_providers sampleReg).length ∧
      (initAllProviders true (initAllProviders true sampleReg []).2.1
        (initAllProviders true sampleReg []).2.2).2.2 =
        [] ++ recs ++ recs :=
  ⟨by decide, init_twice_appends_twice sampleReg [] (by decide)⟩

end ToolProxy
